import Mathlib

/-
Verification of the rfid-servo-lock codebase: a shallow embedding of the
authentication module (salted SHA-256 hashing, .env persistence and lookup),
the servo lock actuator (angle-to-duty-cycle mapping, lock state), the LCD
4-bit bit-banging protocol (as a GPIO event trace), and the main control
loop's shutdown sequence.  Machine words are modelled as Nat with explicit
reduction modulo 2^32; Python floats in the servo mapping are modelled as
exact rationals; file contents are lists of lines (lists of characters);
the random salt generator takes its entropy as an explicit byte-list
argument.
-/

set_option maxRecDepth 100000

namespace RfidServoLock

/-! ## SHA-256 (the hashlib.sha256 primitive used by auth.py), over byte lists -/

/-- Truncate to a 32-bit word. -/
def w32 (x : Nat) : Nat := x % 4294967296

/-- 32-bit right rotation. -/
def rotr (n x : Nat) : Nat := w32 ((x >>> n) ||| (x <<< (32 - n)))

def bigSigma0 (x : Nat) : Nat := (rotr 2 x) ^^^ (rotr 13 x) ^^^ (rotr 22 x)

def bigSigma1 (x : Nat) : Nat := (rotr 6 x) ^^^ (rotr 11 x) ^^^ (rotr 25 x)

def smallSigma0 (x : Nat) : Nat := (rotr 7 x) ^^^ (rotr 18 x) ^^^ (x >>> 3)

def smallSigma1 (x : Nat) : Nat := (rotr 17 x) ^^^ (rotr 19 x) ^^^ (x >>> 10)

/-- SHA-256 choice function; complement taken inside 32 bits. -/
def chFn (x y z : Nat) : Nat := (x &&& y) ^^^ ((4294967295 ^^^ x) &&& z)

def majFn (x y z : Nat) : Nat := (x &&& y) ^^^ (x &&& z) ^^^ (y &&& z)

/-- The 64 SHA-256 round constants. -/
def sha256K : List Nat :=
  [
   1116352408, 1899447441, 3049323471, 3921009573,
   961987163, 1508970993, 2453635748, 2870763221,
   3624381080, 310598401, 607225278, 1426881987,
   1925078388, 2162078206, 2614888103, 3248222580,
   3835390401, 4022224774, 264347078, 604807628,
   770255983, 1249150122, 1555081692, 1996064986,
   2554220882, 2821834349, 2952996808, 3210313671,
   3336571891, 3584528711, 113926993, 338241895,
   666307205, 773529912, 1294757372, 1396182291,
   1695183700, 1986661051, 2177026350, 2456956037,
   2730485921, 2820302411, 3259730800, 3345764771,
   3516065817, 3600352804, 4094571909, 275423344,
   430227734, 506948616, 659060556, 883997877,
   958139571, 1322822218, 1537002063, 1747873779,
   1955562222, 2024104815, 2227730452, 2361852424,
   2428436474, 2756734187, 3204031479, 3329325298]

/-- The SHA-256 initial hash state. -/
def sha256H0 : List Nat :=
  [
   1779033703, 3144134277, 1013904242, 2773480762,
   1359893119, 2600822924, 528734635, 1541459225]

/-- Big-endian byte rendering of a number, k bytes wide. -/
def bytesBE (k n : Nat) : List Nat :=
  (List.range k).map (fun i => (n >>> (8 * (k - 1 - i))) % 256)

/-- SHA-256 padding: 0x80, zeros to 56 mod 64, then the 64-bit bit length. -/
def padMessage (msg : List Nat) : List Nat :=
  let z := (120 - (msg.length + 1) % 64) % 64
  msg ++ [128] ++ List.replicate z 0 ++ bytesBE 8 (8 * msg.length)

/-- Split into 64-byte blocks (fuel-based structural recursion). -/
def chunks64 : Nat → List Nat → List (List Nat)
  | 0, _ => []
  | _ + 1, [] => []
  | fuel + 1, l => l.take 64 :: chunks64 fuel (l.drop 64)

/-- The 16 big-endian message words of one block. -/
def words16 (block : List Nat) : List Nat :=
  (List.range 16).map (fun i =>
    block.getD (4 * i) 0 <<< 24 + block.getD (4 * i + 1) 0 <<< 16 +
    block.getD (4 * i + 2) 0 <<< 8 + block.getD (4 * i + 3) 0)

/-- Extend the message schedule by one word. -/
def scheduleStep (w : List Nat) : List Nat :=
  let n := w.length
  w ++ [w32 (smallSigma1 (w.getD (n - 2) 0) + w.getD (n - 7) 0 +
             smallSigma0 (w.getD (n - 15) 0) + w.getD (n - 16) 0)]

/-- The full 64-word message schedule. -/
def schedule (w : List Nat) : List Nat := Nat.iterate scheduleStep 48 w

/-- One SHA-256 compression round on the 8-word working state. -/
def roundFn (st : List Nat) (kw : Nat × Nat) : List Nat :=
  let a := st.getD 0 0
  let b := st.getD 1 0
  let c := st.getD 2 0
  let d := st.getD 3 0
  let e := st.getD 4 0
  let f := st.getD 5 0
  let g := st.getD 6 0
  let h := st.getD 7 0
  let t1 := w32 (h + bigSigma1 e + chFn e f g + kw.1 + kw.2)
  let t2 := w32 (bigSigma0 a + majFn a b c)
  [w32 (t1 + t2), a, b, c, w32 (d + t1), e, f, g]

/-- Compress one 64-byte block into the hash state. -/
def compressBlock (h : List Nat) (block : List Nat) : List Nat :=
  let st := (sha256K.zip (schedule (words16 block))).foldl roundFn h
  (h.zip st).map (fun p => w32 (p.1 + p.2))

/-- The eight 32-bit result words of SHA-256 on a byte list. -/
def sha256Words (msg : List Nat) : List Nat :=
  let padded := padMessage msg
  (chunks64 (padded.length + 1) padded).foldl compressBlock sha256H0

/-- Lowercase hexadecimal digit for a nibble value. -/
def hexDigit (n : Nat) : Char :=
  if n < 10 then Char.ofNat (48 + n) else Char.ofNat (87 + n)

/-- Eight lowercase hex characters of one 32-bit word, most significant first. -/
def wordHex (x : Nat) : List Char :=
  [hexDigit ((x >>> 28) % 16), hexDigit ((x >>> 24) % 16), hexDigit ((x >>> 20) % 16),
   hexDigit ((x >>> 16) % 16), hexDigit ((x >>> 12) % 16), hexDigit ((x >>> 8) % 16),
   hexDigit ((x >>> 4) % 16), hexDigit (x % 16)]

/-- hashlib.sha256(...).hexdigest(): 64 lowercase hex characters. -/
def sha256hex (msg : List Nat) : String :=
  String.mk (((sha256Words msg).map wordHex).flatten)

/-- UTF-8 encoding of one character (str.encode()). -/
def utf8EncodeCharBytes (c : Char) : List Nat :=
  let n := c.toNat
  if n < 128 then [n]
  else if n < 2048 then [192 + n / 64, 128 + n % 64]
  else if n < 65536 then [224 + n / 4096, 128 + (n / 64) % 64, 128 + n % 64]
  else [240 + n / 262144, 128 + (n / 4096) % 64, 128 + (n / 64) % 64, 128 + n % 64]

/-- UTF-8 encoding of a string (str.encode()). -/
def utf8Bytes (s : String) : List Nat := s.data.flatMap utf8EncodeCharBytes

/-- The sixteen characters a lowercase hex rendering may contain. -/
def hexAlphabet : List Char :=
  ['0', '1', '2', '3', '4'] ++ ['5', '6', '7', '8', '9'] ++ ['a', 'b', 'c'] ++ ['d', 'e', 'f']

/-! ## Python string primitives used by auth.py, on character lists -/

/-- Python str.strip() whitespace set (the ASCII part). -/
def isPySpace (c : Char) : Bool :=
  c == ' ' || c == '\t' || c == '\n' || c == '\r' || c == '\x0b' || c == '\x0c'

/-- Remove trailing whitespace. -/
def dropTrailingSpace (l : List Char) : List Char := (l.reverse.dropWhile isPySpace).reverse

/-- Python str.strip(): remove surrounding whitespace. -/
def pyStrip (l : List Char) : List Char := dropTrailingSpace (l.dropWhile isPySpace)

/-- Python str.startswith on character lists. -/
def listStartsWith : List Char → List Char → Bool
  | [], _ => true
  | _ :: _, [] => false
  | p :: ps, c :: cs => p == c && listStartsWith ps cs

/-! ## auth.py -/

/-- generate_salt: secrets.token_hex(32) with the 32 random bytes passed in
explicitly; renders each byte as two lowercase hex characters. -/
def generate_salt (rand : List Nat) : String :=
  String.mk ((rand.map (fun b => [hexDigit ((b / 16) % 16), hexDigit (b % 16)])).flatten)

/-- hash_password: SHA-256 over the UTF-8 encoding of password followed by
salt; a missing salt is freshly generated from the explicit entropy
argument.  Returns (hex digest, salt). -/
def hash_password (password : String) (salt : Option String) (rand : List Nat) : String × String :=
  let s := match salt with
    | some s0 => s0
    | none => generate_salt rand
  (sha256hex (utf8Bytes (password ++ s)), s)

/-- secrets.compare_digest on (ASCII) strings: equality. -/
def compare_digest (a b : String) : Bool := a == b

/-- verify_password: recompute the hash with the stored salt and compare. -/
def verify_password (password stored_hash stored_salt : String) : Bool :=
  compare_digest (hash_password password (some stored_salt) []).1 stored_hash

/-- The state of the configuration file: missing, existing but unreadable
(open raises), or readable with the given lines. -/
inductive EnvFile where
  | missing : EnvFile
  | unreadable : EnvFile
  | content : List (List Char) → EnvFile

def hashKeyChars : List Char := "RFID_PASSWORD_HASH".data

def saltKeyChars : List Char := "RFID_PASSWORD_SALT".data

/-- load_password_from_env: scan the lines; the last line whose stripped form
starts with RFID_PASSWORD_HASH= (resp. ...SALT=) supplies the hash (resp.
salt), stripped; both must be present and non-empty.  A missing or
unreadable file yields none. -/
def load_password_from_env (f : EnvFile) : Option (List Char × List Char) :=
  match f with
  | EnvFile.missing => none
  | EnvFile.unreadable => none
  | EnvFile.content lines =>
    let acc := lines.foldl (fun acc line =>
      let sl := pyStrip line
      if listStartsWith (hashKeyChars ++ [ '=' ]) sl then (some (pyStrip (sl.drop 19)), acc.2)
      else if listStartsWith (saltKeyChars ++ [ '=' ]) sl then (acc.1, some (pyStrip (sl.drop 19)))
      else acc) ((none, none) : Option (List Char) × Option (List Char))
    match acc with
    | (some h, some s) => if !h.isEmpty && !s.isEmpty then some (h, s) else none
    | _ => none

/-- verify_card_password: load the stored credentials; deny if none,
otherwise verify the supplied card password (used verbatim) against them. -/
def verify_card_password (card_password : String) (f : EnvFile) : Bool :=
  match load_password_from_env f with
  | none => false
  | some (h, s) => verify_password card_password (String.mk h) (String.mk s)

/-- Python dict insertion: update the value at an existing key in place,
otherwise append the new pair. -/
def insertOrUpdate (m : List (List Char × List Char)) (k v : List Char) :
    List (List Char × List Char) :=
  match m with
  | [] => [(k, v)]
  | (k0, v0) :: rest =>
    if k0 = k then (k, v) :: rest else (k0, v0) :: insertOrUpdate rest k v

/-- One line of save_password_to_env's read-back loop: skip blank and
comment lines and lines without =, otherwise record the stripped key and
value. -/
def parseStep (m : List (List Char × List Char)) (line : List Char) :
    List (List Char × List Char) :=
  match pyStrip line with
  | [] => m
  | c :: cs =>
    if c = '#' then m
    else if (c :: cs).contains '=' then
      insertOrUpdate m (pyStrip ((c :: cs).takeWhile (fun x => x != '=')))
        (pyStrip (((c :: cs).dropWhile (fun x => x != '=')).drop 1))
    else m

/-- The env_content dictionary save_password_to_env reads from an existing
file. -/
def parseEnvLines (lines : List (List Char)) : List (List Char × List Char) :=
  lines.foldl parseStep []

/-- The two comment lines and the blank line save_password_to_env writes
before the key-value pairs. -/
def headerLines : List (List Char) :=
  ["# RFID Servo Lock Environment Configuration".data,
   "# Generated automatically - do not edit manually".data,
   []]

/-- The dictionary written back by save_password_to_env: the parsed existing
content with RFID_PASSWORD_HASH and RFID_PASSWORD_SALT set to the fresh hash
and salt. -/
def savedEnv (password : String) (rand : List Nat) (oldLines : List (List Char)) :
    List (List Char × List Char) :=
  let hs := hash_password password none rand
  insertOrUpdate (insertOrUpdate (parseEnvLines oldLines) hashKeyChars hs.1.data)
    saltKeyChars hs.2.data

/-- save_password_to_env on an existing (readable) file: the lines written
back, one KEY=VALUE line per dictionary entry after the fixed header. -/
def save_password_to_env (password : String) (rand : List Nat)
    (oldLines : List (List Char)) : List (List Char) :=
  headerLines ++ (savedEnv password rand oldLines).map (fun kv => kv.1 ++ '=' :: kv.2)

/-- First-match association lookup in the parsed environment. -/
def lookupEnv : List (List Char × List Char) → List Char → Option (List Char)
  | [], _ => none
  | (k, v) :: rest, q => if k = q then some v else lookupEnv rest q

/-- A credential read from a card: numeric identifier and text payload. -/
structure Credential where
  id : Nat
  payload : String

/-- The authorization decision for a presented credential: auth.py's
verify_card_password applied to the card's payload password (the card
identifier is not an input of the decision). -/
def authorizeCredential (c : Credential) (f : EnvFile) : Bool :=
  verify_card_password c.payload f

/-! ## servo.py -/

/-- The servo lock actuator: configuration plus the mutable state (whether
the PWM channel is running, and the recorded lock flag). -/
structure ServoLock where
  pin : Nat
  locked_angle : Int
  unlocked_angle : Int
  frequency : ℚ
  min_pulse : ℚ
  max_pulse : ℚ
  pwm : Bool
  is_locked : Bool

/-- _map_value: linear map of a value from one range onto another. -/
def map_value (value in_min in_max out_min out_max : ℚ) : ℚ :=
  (out_max - out_min) * (value - in_min) / (in_max - in_min) + out_min

/-- set_angle: clamp to [0,180], map angle to pulse width over
[min_pulse, max_pulse], map pulse width over a fixed 20000 microsecond
period to a duty-cycle percentage, and emit one ChangeDutyCycle write when
the PWM channel is running.  Returns the (unchanged) actuator and the list
of duty-cycle writes performed. -/
def set_angle (sl : ServoLock) (angle : Int) : ServoLock × List ℚ :=
  let clamped := max 0 (min 180 angle)
  let pulse_width := map_value (clamped : ℚ) 0 180 sl.min_pulse sl.max_pulse
  let duty_cycle := map_value pulse_width 0 20000 0 100
  (sl, if sl.pwm then [duty_cycle] else [])

/-- lock: drive to the locked angle and record the locked state. -/
def lock (sl : ServoLock) : ServoLock × List ℚ :=
  let r := set_angle sl sl.locked_angle
  ({ r.1 with is_locked := true }, r.2)

/-- unlock: drive to the unlocked angle and record the unlocked state. -/
def unlock (sl : ServoLock) : ServoLock × List ℚ :=
  let r := set_angle sl sl.unlocked_angle
  ({ r.1 with is_locked := false }, r.2)

/-- toggle: move to the opposite of the recorded state. -/
def toggle (sl : ServoLock) : ServoLock × List ℚ :=
  if sl.is_locked then unlock sl else lock sl

/-- The actuator as constructed by main.py (pin 18, angles 0/90, defaults
50 Hz and 500/2500 microseconds), after __init__ has started PWM and driven
the servo to the locked position. -/
def defaultServo : ServoLock :=
  { pin := 18, locked_angle := 0, unlocked_angle := 90, frequency := 50,
    min_pulse := 500, max_pulse := 2500, pwm := true, is_locked := true }

/-- The duty-cycle formula the specification states: the pulse width mapped
over a period of 10^6 / frequency microseconds onto [0, 100].  (Second
definition, written from the spec's words, for comparison with set_angle.) -/
def spec_duty_cycle (sl : ServoLock) (angle : Int) : ℚ :=
  let clamped := max 0 (min 180 angle)
  let pulse_width := map_value (clamped : ℚ) 0 180 sl.min_pulse sl.max_pulse
  map_value pulse_width 0 (1000000 / sl.frequency) 0 100

/-! ## lcd.py: the 4-bit bus protocol as a GPIO event trace -/

/-- One observable GPIO action of the LCD driver: a timed delay in
microseconds or a digital write of a level to a pin. -/
inductive Ev where
  | delay : Nat → Ev
  | out : Nat → Bool → Ev
deriving DecidableEq

/-- The LCD pin configuration: register select, enable, and the data pins
in D4..D7 order. -/
structure LCDConfig where
  pin_rs : Nat
  pin_e : Nat
  pins_db : List Nat

/-- _pulse_enable: drive the enable pin low, high, low, holding each level
for one microsecond. -/
def pulse_enable (c : LCDConfig) : List Ev :=
  [Ev.out c.pin_e false, Ev.delay 1, Ev.out c.pin_e true, Ev.delay 1,
   Ev.out c.pin_e false, Ev.delay 1]

/-- Binary digits of n, most significant first (Python bin(n)[2:] for
positive n); fuel-based structural recursion. -/
def natToBinAux : Nat → Nat → List Bool
  | 0, _ => []
  | fuel + 1, n => if n = 0 then [] else natToBinAux fuel (n / 2) ++ [decide (n % 2 = 1)]

/-- Python bin(n)[2:] as a bit list (so bin(0) is the single digit 0). -/
def natToBin (n : Nat) : List Bool := if n = 0 then [false] else natToBinAux (n + 1) n

/-- Python str.zfill(8) on a bit string: left-pad with zeros to length 8. -/
def zfill8 (l : List Bool) : List Bool := List.replicate (8 - l.length) false ++ l

/-- bits_str = bin(bits)[2:].zfill(8). -/
def bin8 (bits : Nat) : List Bool := zfill8 (natToBin bits)

/-- One nibble phase of _write4bits: drive all data pins low, then drive
high the pins whose bit (read from bits_str starting at offset lo, i.e.
most significant first) is set, with bits_str[lo + i] going to the reversed
data-pin list's i-th entry. -/
def nibbleWrites (c : LCDConfig) (bs : List Bool) (lo : Nat) : List Ev :=
  c.pins_db.map (fun p => Ev.out p false) ++
  (List.range 4).filterMap (fun i =>
    if bs.getD (lo + i) false then some (Ev.out (c.pins_db.reverse.getD i 0) true) else none)

/-- _write4bits: settle delay, set register select, then write the high
nibble and pulse enable, then the low nibble and pulse enable. -/
def write4bits (c : LCDConfig) (bits : Nat) (char_mode : Bool) : List Ev :=
  [Ev.delay 1000, Ev.out c.pin_rs char_mode]
  ++ nibbleWrites c (bin8 bits) 0 ++ pulse_enable c
  ++ nibbleWrites c (bin8 bits) 4 ++ pulse_enable c

/-- A nibble phase described by the nibble's value: bit j of the nibble
(j = 3 the most significant) drives the data pin configured for line
D(4+j), i.e. entry j of pins_db.  (Statement-side form, for comparison
with nibbleWrites.) -/
def nibblePhase (c : LCDConfig) (nib : Nat) : List Ev :=
  c.pins_db.map (fun p => Ev.out p false) ++
  (List.range 4).filterMap (fun i =>
    if nib.testBit (3 - i) then some (Ev.out (c.pins_db.reverse.getD i 0) true) else none)

/-- Effect of one GPIO event on the recorded pin levels. -/
def applyEv (st : Nat → Option Bool) : Ev → (Nat → Option Bool)
  | Ev.delay _ => st
  | Ev.out p b => fun q => if q = p then some b else st q

/-- Pin levels after executing a trace from a starting assignment. -/
def runTrace (st : Nat → Option Bool) (evs : List Ev) : Nat → Option Bool :=
  evs.foldl applyEv st

/-- All pins unconfigured. -/
def emptySt : Nat → Option Bool := fun _ => none

/-- The pin configuration lcd.py uses by default. -/
def defaultLCD : LCDConfig := { pin_rs := 27, pin_e := 22, pins_db := [25, 24, 23, 18] }

/-! ## main.py: the shutdown sequence of run()'s finally block -/

/-- The five cleanup statements of run()'s finally block, in program
order. -/
inductive CleanupStep where
  | servoCleanup : CleanupStep
  | lcdClear : CleanupStep
  | lcdBacklightOff : CleanupStep
  | lcdCleanup : CleanupStep
  | gpioCleanup : CleanupStep
deriving DecidableEq

/-- The order in which run()'s finally block performs cleanup. -/
def shutdownSteps : List CleanupStep :=
  [CleanupStep.servoCleanup, CleanupStep.lcdClear, CleanupStep.lcdBacklightOff,
   CleanupStep.lcdCleanup, CleanupStep.gpioCleanup]

/-- Why the control loop exited: a KeyboardInterrupt or any other fault. -/
inductive ExitCause where
  | interrupt : ExitCause
  | fault : ExitCause

/-- Python semantics of a plain statement sequence (the finally block):
each step is attempted in order; a step that raises terminates the block,
and the remaining statements are skipped.  Returns the attempted steps. -/
def runCleanup (fails : CleanupStep → Bool) : List CleanupStep → List CleanupStep
  | [] => []
  | s :: rest => if fails s then [s] else s :: runCleanup fails rest

/-- The cleanup steps attempted when run() exits for the given cause, with
the given per-step fault behaviour: both exit paths reach the same finally
block. -/
def runShutdown (_cause : ExitCause) (fails : CleanupStep → Bool) : List CleanupStep :=
  runCleanup fails shutdownSteps

/-! ## Concrete artifacts used by witnesses and counterexamples -/

/-- A stored record enrolling password p with salt abc. -/
def storedHash3 : String := (hash_password "p" (some "abc") []).1

/-- Configuration lines holding that record. -/
def envLines3 : List (List Char) :=
  [("RFID_PASSWORD_HASH=" ++ storedHash3).data, "RFID_PASSWORD_SALT=abc".data]

/-- A readable configuration file holding that record. -/
def envFile3 : EnvFile := EnvFile.content envLines3

/-- The default actuator with the PWM frequency set to 100 Hz. -/
def servo100 : ServoLock := { defaultServo with frequency := 100 }

/-- A fault model where the servo cleanup raises and everything else
succeeds. -/
def failServo : CleanupStep → Bool := fun s => s == CleanupStep.servoCleanup

/-- An existing configuration file with an unrelated key and a stale
record, used by the claim-10 witness. -/
def oldLines10 : List (List Char) :=
  ["# a comment".data, "OTHER_KEY= keep me ".data, "RFID_PASSWORD_HASH=stale".data]

/-- A key-value pair as the parsed environment dictionary stores it: both
parts are stripped, the key contains no = and does not begin with #.  Every
pair parseStep produces has this shape, and it is exactly what makes the
written KEY=VALUE line parse back to the same pair. -/
def goodPair (kv : List Char × List Char) : Prop :=
  pyStrip kv.1 = kv.1 ∧ pyStrip kv.2 = kv.2 ∧
    (∀ c ∈ kv.1, c ≠ '=') ∧ kv.1.head? ≠ some '#'

/-! ## Helper lemmas -/

theorem runCleanup_all_ok (fails : CleanupStep → Bool) (h : ∀ s, fails s = false) :
    ∀ steps, runCleanup fails steps = steps := by
  intro steps
  induction steps with
  | nil => rfl
  | cons s rest ih => simp [runCleanup, h s, ih]

theorem runCleanup_take (fails : CleanupStep → Bool) :
    ∀ steps, ∃ n, runCleanup fails steps = steps.take n := by
  intro steps
  induction steps with
  | nil => exact ⟨0, rfl⟩
  | cons s rest ih =>
    by_cases h : fails s = true
    · exact ⟨1, by simp [runCleanup, h]⟩
    · obtain ⟨n, hn⟩ := ih
      exact ⟨n + 1, by simp [runCleanup, h, hn]⟩

theorem clamp_idem (a : Int) : max 0 (min 180 (max 0 (min 180 a))) = max 0 (min 180 a) := by
  omega

theorem clamp_at_0 : max 0 (min 180 (0 : Int)) = 0 := by omega

theorem clamp_at_180 : max 0 (min 180 (180 : Int)) = 180 := by omega

theorem clamp_at_200 : max 0 (min 180 (200 : Int)) = 180 := by omega

/-! ## Claims -/

/-- Claim C1: authorization is fail-closed.  Whenever no stored credential
record can be loaded from the configuration file (missing file, unreadable
file, or absent/empty RFID_PASSWORD_HASH / RFID_PASSWORD_SALT keys all make
load_password_from_env return none), verify_card_password returns false,
for every supplied card password. -/
theorem claim1_fail_closed (p : String) (f : EnvFile)
    (h : load_password_from_env f = none) : verify_card_password p f = false := by
  unfold verify_card_password
  rw [h]

/-- Witness for claim C1: a missing file, an unreadable file, and a file
whose hash key has an empty value all load as none, and the card is denied
in each case. -/
theorem claim1_witness :
    load_password_from_env EnvFile.missing = none ∧
      load_password_from_env EnvFile.unreadable = none ∧
      load_password_from_env (EnvFile.content ["RFID_PASSWORD_HASH=".data]) = none ∧
      verify_card_password "secret" EnvFile.missing = false ∧
      verify_card_password "secret" EnvFile.unreadable = false ∧
      verify_card_password "secret" (EnvFile.content ["RFID_PASSWORD_HASH=".data]) = false :=
  ⟨rfl, rfl, by decide,
   claim1_fail_closed "secret" EnvFile.missing rfl,
   claim1_fail_closed "secret" EnvFile.unreadable rfl,
   claim1_fail_closed "secret" (EnvFile.content ["RFID_PASSWORD_HASH=".data]) (by decide)⟩

/-- Claim C3 counterexample: verify_card_password does not trim the
supplied password.  With password p enrolled under salt abc, the exact
password is accepted but the whitespace-surrounded password is rejected, so
the two calls do not behave identically. -/
theorem claim3_counterexample :
    verify_card_password "p" envFile3 = true ∧
      verify_card_password "  p  " envFile3 = false := by decide

/-- Claim C3 (amended): the supplied card password is used verbatim — no
surrounding whitespace is trimmed.  Whenever a record (hash, salt) loads,
verify_card_password p compares the SHA-256 digest of the supplied p (as
given) followed by the stored salt against the stored hash. -/
theorem claim3_trim_amended (p : String) (f : EnvFile) (h s : List Char)
    (hl : load_password_from_env f = some (h, s)) :
    verify_card_password p f =
      compare_digest (sha256hex (utf8Bytes (p ++ String.mk s))) (String.mk h) := by
  unfold verify_card_password
  rw [hl]
  rfl

/-- Witness for the amended claim C3, at the enrolled file and the padded
password. -/
theorem claim3_witness :
    verify_card_password "  p  " envFile3 =
      compare_digest (sha256hex (utf8Bytes ("  p  " ++ String.mk "abc".data)))
        (String.mk storedHash3.data) :=
  claim3_trim_amended "  p  " envFile3 storedHash3.data "abc".data (by decide)

/-- Claim C4 counterexample: at frequency 100 Hz the code still divides the
pulse width by the hard-coded 20000 microseconds, so angle 180 with
max_pulse 2500 is driven at duty cycle 12.5, not the 25 the specification's
10^6/frequency formula gives. -/
theorem claim4_counterexample :
    (set_angle servo100 180).2 = [(25 : ℚ) / 2] ∧
      spec_duty_cycle servo100 180 = 25 ∧
      ((25 : ℚ) / 2) ≠ 25 := by
  refine ⟨?_, ?_, by norm_num⟩ <;>
    norm_num [set_angle, spec_duty_cycle, map_value, servo100, defaultServo]

/-- Claim C4 (amended): set_angle clamps the angle to [0, 180] and maps it
linearly to a pulse width in [min_pulse, max_pulse], but converts the pulse
width to a duty-cycle percentage over a fixed 20000 microsecond period (the
50 Hz period) regardless of the configured frequency: angle 0 is driven at
min_pulse/200 percent and angle 180 at max_pulse/200 percent, and changing
the configured frequency does not change the applied duty cycle. -/
theorem claim4_duty_amended (sl : ServoLock) (a : Int) (hpwm : sl.pwm = true) :
    set_angle sl a = set_angle sl (max 0 (min 180 a)) ∧
      (set_angle sl 0).2 = [sl.min_pulse / 200] ∧
      (set_angle sl 180).2 = [sl.max_pulse / 200] ∧
      ∀ f : ℚ, (set_angle { sl with frequency := f } a).2 = (set_angle sl a).2 := by
  refine ⟨?_, ?_, ?_, fun f => rfl⟩
  · simp [set_angle, clamp_idem]
  · simp [set_angle, clamp_at_0, hpwm, map_value]
    ring
  · simp [set_angle, clamp_at_180, hpwm, map_value]
    ring

/-- Witness for the amended claim C4: 200 degrees is clamped to 180. -/
theorem claim4_witness : set_angle defaultServo 200 = set_angle defaultServo 180 := by
  have h := (claim4_duty_amended defaultServo 200 rfl).1
  rw [clamp_at_200] at h
  exact h

/-- Claim C5 counterexample: from the post-construction state (PWM running,
locked), two consecutive lock() calls perform two ChangeDutyCycle writes,
not at most one: lock() re-asserts the position unconditionally. -/
theorem claim5_counterexample :
    (lock defaultServo).1.is_locked = true ∧
      (lock (lock defaultServo).1).1.is_locked = true ∧
      (lock defaultServo).2.length + (lock (lock defaultServo).1).2.length = 2 ∧
      ¬ ((lock defaultServo).2.length + (lock (lock defaultServo).1).2.length ≤ 1) := by
  decide

/-- Claim C5 (amended): lock() twice in a row leaves the recorded lock
state unchanged after the first call (is_locked is true after both, and the
second call does not change the state at all), but there is no state guard
against redundant actuation: with the PWM channel running the pair performs
exactly two duty-cycle writes (and none when PWM is stopped). -/
theorem claim5_lock_amended (sl : ServoLock) :
    (lock sl).1.is_locked = true ∧
      (lock (lock sl).1).1 = (lock sl).1 ∧
      (lock sl).2.length + (lock (lock sl).1).2.length = (if sl.pwm then 2 else 0) := by
  obtain ⟨pin, la, ua, fr, mn, mx, pwm, il⟩ := sl
  cases pwm <;> simp [lock, set_angle]

/-- Claim C7: hash/verify round trip.  For every password and salt,
verifying the password against the digest hash_password produced with that
salt succeeds. -/
theorem claim7_roundtrip (p s : String) (r : List Nat) :
    verify_password p (hash_password p (some s) r).1 s = true := by
  simp [verify_password, hash_password, compare_digest]

/-- Claim C8 counterexample: if the servo cleanup step raises, the finally
block stops there — the display is never cleared and GPIO is never
released, contradicting "every later step still runs". -/
theorem claim8_counterexample :
    runShutdown ExitCause.fault failServo = [CleanupStep.servoCleanup] ∧
      CleanupStep.lcdClear ∉ runShutdown ExitCause.fault failServo ∧
      CleanupStep.gpioCleanup ∉ runShutdown ExitCause.fault failServo := by decide

/-- Claim C8 (amended): on every exit of the control loop (interrupt or
fault) the finally block attempts, in order: servo PWM stop, display
clear, backlight off, display cleanup, GPIO release.  When no step raises,
all five run in that order; but the block is plain sequential code, so the
steps actually run always form a prefix of that order — a raising step
skips every later step. -/
theorem claim8_shutdown_amended (cause : ExitCause) (fails : CleanupStep → Bool) :
    ((∀ s, fails s = false) → runShutdown cause fails = shutdownSteps) ∧
      ∃ n, runShutdown cause fails = shutdownSteps.take n :=
  ⟨fun h => runCleanup_all_ok fails h shutdownSteps,
   runCleanup_take fails shutdownSteps⟩

/-- Witness for the amended claim C8: with no step raising, an interrupt
exit runs all five cleanup steps in order. -/
theorem claim8_witness :
    runShutdown ExitCause.interrupt (fun _ => false) = shutdownSteps :=
  (claim8_shutdown_amended ExitCause.interrupt (fun _ => false)).1 (fun _ => rfl)

/-- Claim C9: the authorization decision is independent of the card
identifier — two credentials with equal payloads receive identical results
on every configuration-file state, whatever their identifiers, because
verify_card_password reads only the payload password and the single global
stored record. -/
theorem claim9_id_independent (f : EnvFile) (c1 c2 : Credential)
    (hp : c1.payload = c2.payload) :
    authorizeCredential c1 f = authorizeCredential c2 f := by
  unfold authorizeCredential
  rw [hp]

/-- Witness for claim C9: distinct card identifiers, same payload, same
decision. -/
theorem claim9_witness :
    authorizeCredential { id := 111, payload := "pw" } envFile3 =
      authorizeCredential { id := 222, payload := "pw" } envFile3 :=
  claim9_id_independent envFile3 { id := 111, payload := "pw" }
    { id := 222, payload := "pw" } rfl

/-! ## Digest shape lemmas for claim C2 -/

theorem roundFn_length (st : List Nat) (kw : Nat × Nat) : (roundFn st kw).length = 8 := rfl

theorem foldl_roundFn_length (l : List (Nat × Nat)) :
    ∀ st : List Nat, st.length = 8 → (l.foldl roundFn st).length = 8 := by
  induction l with
  | nil => intro st h; exact h
  | cons kw rest ih => intro st _; exact ih (roundFn st kw) (roundFn_length st kw)

theorem compressBlock_length (h block : List Nat) (hh : h.length = 8) :
    (compressBlock h block).length = 8 := by
  unfold compressBlock
  rw [List.length_map, List.length_zip, hh,
    foldl_roundFn_length _ h hh]
  rfl

theorem foldl_compressBlock_length (blocks : List (List Nat)) :
    ∀ h : List Nat, h.length = 8 → (blocks.foldl compressBlock h).length = 8 := by
  induction blocks with
  | nil => intro h hh; exact hh
  | cons b rest ih => intro h hh; exact ih _ (compressBlock_length h b hh)

theorem sha256Words_length (msg : List Nat) : (sha256Words msg).length = 8 :=
  foldl_compressBlock_length _ sha256H0 rfl

theorem wordHex_length (x : Nat) : (wordHex x).length = 8 := rfl

theorem flatten_wordHex_length (l : List Nat) :
    ((l.map wordHex).flatten).length = 8 * l.length := by
  induction l with
  | nil => rfl
  | cons x rest ih =>
    simp only [List.map_cons, List.flatten_cons, List.length_append, wordHex_length, ih,
      List.length_cons]
    omega

theorem sha256hex_length (msg : List Nat) : (sha256hex msg).length = 64 := by
  unfold sha256hex
  rw [String.length_mk, flatten_wordHex_length, sha256Words_length]

theorem hexDigit_lt_mem : ∀ m, m < 16 → hexDigit m ∈ hexAlphabet := by decide

theorem hexDigit_mod_mem (n : Nat) : hexDigit (n % 16) ∈ hexAlphabet :=
  hexDigit_lt_mem (n % 16) (Nat.mod_lt n (by decide))

theorem wordHex_chars (x : Nat) : ∀ c ∈ wordHex x, c ∈ hexAlphabet := by
  intro c hc
  simp only [wordHex, List.mem_cons, List.not_mem_nil, or_false] at hc
  rcases hc with h | h | h | h | h | h | h | h <;> rw [h] <;> exact hexDigit_mod_mem _

theorem sha256hex_chars (msg : List Nat) : ∀ c ∈ (sha256hex msg).data, c ∈ hexAlphabet := by
  intro c hc
  have hc2 : c ∈ ((sha256Words msg).map wordHex).flatten := hc
  rw [List.mem_flatten] at hc2
  obtain ⟨l, hl, hcl⟩ := hc2
  rw [List.mem_map] at hl
  obtain ⟨w, _, hw⟩ := hl
  exact wordHex_chars w c (hw ▸ hcl)

/-- Claim C2: hash_password with a provided salt returns the SHA-256 digest
of the UTF-8 encoding of password followed by salt (password first, salt
appended) together with that same salt unchanged; the digest is exactly 64
characters, all of them lowercase hexadecimal digits. -/
theorem claim2_hash_password (p s : String) (r : List Nat) :
    hash_password p (some s) r = (sha256hex (utf8Bytes (p ++ s)), s) ∧
      (hash_password p (some s) r).1.length = 64 ∧
      ∀ ch ∈ (hash_password p (some s) r).1.data, ch ∈ hexAlphabet :=
  ⟨rfl, sha256hex_length _, fun ch hch => sha256hex_chars _ ch hch⟩

/-- Witness for claim C2 at a concrete password and salt: the digest has 64
characters, and the hash of the empty password with salt abc is the SHA-256
digest of abc. -/
theorem claim2_witness :
    (hash_password "pw" (some "salt") []).1.length = 64 ∧
      (hash_password "" (some "abc") []).1 =
        "ba7816bf8f01cfea414140de5dae2223b00361a396177a9cb410ff61f20015ad" :=
  ⟨(claim2_hash_password "pw" "salt" []).2.1,
   by rw [((claim2_hash_password "" "abc" []).1 : _)]; decide⟩

/-! ## Trace lemmas for claim C6 -/

theorem range4 : List.range 4 = [0, 1, 2, 3] := rfl

theorem bin8_nibbles : ∀ b, b < 256 →
    (bin8 b).getD 0 false = (b / 16).testBit 3 ∧ (bin8 b).getD 1 false = (b / 16).testBit 2 ∧
    (bin8 b).getD 2 false = (b / 16).testBit 1 ∧ (bin8 b).getD 3 false = (b / 16).testBit 0 ∧
    (bin8 b).getD 4 false = (b % 16).testBit 3 ∧ (bin8 b).getD 5 false = (b % 16).testBit 2 ∧
    (bin8 b).getD 6 false = (b % 16).testBit 1 ∧ (bin8 b).getD 7 false = (b % 16).testBit 0 := by
  decide

theorem nibbleWrites_eq_hi (c : LCDConfig) (b : Nat) (hb : b < 256) :
    nibbleWrites c (bin8 b) 0 = nibblePhase c (b / 16) := by
  obtain ⟨h0, h1, h2, h3, _, _, _, _⟩ := bin8_nibbles b hb
  unfold nibbleWrites nibblePhase
  congr 1
  apply List.filterMap_congr
  intro i hi
  rw [range4] at hi
  simp only [List.mem_cons, List.not_mem_nil, or_false] at hi
  rcases hi with rfl | rfl | rfl | rfl
  · show (if (bin8 b).getD 0 false then some (Ev.out (c.pins_db.reverse.getD 0 0) true)
        else none) = _
    rw [h0]
  · show (if (bin8 b).getD 1 false then some (Ev.out (c.pins_db.reverse.getD 1 0) true)
        else none) = _
    rw [h1]
  · show (if (bin8 b).getD 2 false then some (Ev.out (c.pins_db.reverse.getD 2 0) true)
        else none) = _
    rw [h2]
  · show (if (bin8 b).getD 3 false then some (Ev.out (c.pins_db.reverse.getD 3 0) true)
        else none) = _
    rw [h3]

theorem nibbleWrites_eq_lo (c : LCDConfig) (b : Nat) (hb : b < 256) :
    nibbleWrites c (bin8 b) 4 = nibblePhase c (b % 16) := by
  obtain ⟨_, _, _, _, h4, h5, h6, h7⟩ := bin8_nibbles b hb
  unfold nibbleWrites nibblePhase
  congr 1
  apply List.filterMap_congr
  intro i hi
  rw [range4] at hi
  simp only [List.mem_cons, List.not_mem_nil, or_false] at hi
  rcases hi with rfl | rfl | rfl | rfl
  · show (if (bin8 b).getD 4 false then some (Ev.out (c.pins_db.reverse.getD 0 0) true)
        else none) = _
    rw [h4]
  · show (if (bin8 b).getD 5 false then some (Ev.out (c.pins_db.reverse.getD 1 0) true)
        else none) = _
    rw [h5]
  · show (if (bin8 b).getD 6 false then some (Ev.out (c.pins_db.reverse.getD 2 0) true)
        else none) = _
    rw [h6]
  · show (if (bin8 b).getD 7 false then some (Ev.out (c.pins_db.reverse.getD 3 0) true)
        else none) = _
    rw [h7]

theorem runTrace_append (st : Nat → Option Bool) (evs1 evs2 : List Ev) :
    runTrace st (evs1 ++ evs2) = runTrace (runTrace st evs1) evs2 := by
  simp [runTrace]

theorem runTrace_nibblePhase_at (c : LCDConfig) (p0 p1 p2 p3 : Nat) (nib : Nat)
    (st : Nat → Option Bool) (hpins : c.pins_db = [p0, p1, p2, p3])
    (h01 : p0 ≠ p1) (h02 : p0 ≠ p2) (h03 : p0 ≠ p3)
    (h12 : p1 ≠ p2) (h13 : p1 ≠ p3) (h23 : p2 ≠ p3) :
    runTrace st (nibblePhase c nib) p0 = some (nib.testBit 0) ∧
      runTrace st (nibblePhase c nib) p1 = some (nib.testBit 1) ∧
      runTrace st (nibblePhase c nib) p2 = some (nib.testBit 2) ∧
      runTrace st (nibblePhase c nib) p3 = some (nib.testBit 3) := by
  cases hb3 : nib.testBit 3 <;> cases hb2 : nib.testBit 2 <;> cases hb1 : nib.testBit 1 <;>
    cases hb0 : nib.testBit 0 <;>
      simp [nibblePhase, hpins, range4, runTrace, applyEv, List.filterMap_cons,
        hb3, hb2, hb1, hb0, h01, h02, h03, h12, h13, h23,
        Ne.symm h01, Ne.symm h02, Ne.symm h03, Ne.symm h12, Ne.symm h13, Ne.symm h23]

theorem runTrace_nibblePhase_other (c : LCDConfig) (p0 p1 p2 p3 : Nat) (nib : Nat)
    (st : Nat → Option Bool) (q : Nat) (hpins : c.pins_db = [p0, p1, p2, p3])
    (hq0 : q ≠ p0) (hq1 : q ≠ p1) (hq2 : q ≠ p2) (hq3 : q ≠ p3) :
    runTrace st (nibblePhase c nib) q = st q := by
  cases hb3 : nib.testBit 3 <;> cases hb2 : nib.testBit 2 <;> cases hb1 : nib.testBit 1 <;>
    cases hb0 : nib.testBit 0 <;>
      simp [nibblePhase, hpins, range4, runTrace, applyEv, List.filterMap_cons,
        hb3, hb2, hb1, hb0, hq0, hq1, hq2, hq3]

theorem runTrace_pulse_other (c : LCDConfig) (st : Nat → Option Bool) (q : Nat)
    (hq : q ≠ c.pin_e) : runTrace st (pulse_enable c) q = st q := by
  simp [runTrace, pulse_enable, applyEv, hq]

theorem runTrace_rs_init (rs : Nat) (cm : Bool) :
    runTrace emptySt [Ev.delay 1000, Ev.out rs cm] rs = some cm := by
  simp [runTrace, applyEv]

/-- Claim C6: _write4bits(b) transmits the 8-bit value b as two 4-bit
nibble writes, high nibble (b / 16) first, then low nibble (b % 16); the
register-select level is set for the byte and still holds when each nibble
is latched; at each latch the four data lines carry the nibble's bits with
bit j of the nibble on pins_db entry j — so the most significant bit rides
on the last configured data pin, the one wired to the highest-numbered data
line D7 — and each latch is an enable pulse low, high, low with a
one-microsecond hold at every level. -/
theorem claim6_write4bits (c : LCDConfig) (b : Nat) (cm : Bool) (p0 p1 p2 p3 : Nat)
    (hb : b < 256) (hpins : c.pins_db = [p0, p1, p2, p3])
    (hnd : (c.pin_rs :: c.pin_e :: c.pins_db).Nodup) :
    write4bits c b cm =
        [Ev.delay 1000, Ev.out c.pin_rs cm]
          ++ nibblePhase c (b / 16) ++ pulse_enable c
          ++ nibblePhase c (b % 16) ++ pulse_enable c ∧
      pulse_enable c =
        [Ev.out c.pin_e false, Ev.delay 1, Ev.out c.pin_e true, Ev.delay 1,
         Ev.out c.pin_e false, Ev.delay 1] ∧
      (runTrace emptySt ([Ev.delay 1000, Ev.out c.pin_rs cm] ++ nibblePhase c (b / 16))
            c.pin_rs = some cm ∧
        runTrace emptySt ([Ev.delay 1000, Ev.out c.pin_rs cm] ++ nibblePhase c (b / 16)) p0 =
          some ((b / 16).testBit 0) ∧
        runTrace emptySt ([Ev.delay 1000, Ev.out c.pin_rs cm] ++ nibblePhase c (b / 16)) p1 =
          some ((b / 16).testBit 1) ∧
        runTrace emptySt ([Ev.delay 1000, Ev.out c.pin_rs cm] ++ nibblePhase c (b / 16)) p2 =
          some ((b / 16).testBit 2) ∧
        runTrace emptySt ([Ev.delay 1000, Ev.out c.pin_rs cm] ++ nibblePhase c (b / 16)) p3 =
          some ((b / 16).testBit 3)) ∧
      (runTrace emptySt ([Ev.delay 1000, Ev.out c.pin_rs cm] ++ nibblePhase c (b / 16)
            ++ pulse_enable c ++ nibblePhase c (b % 16)) c.pin_rs = some cm ∧
        runTrace emptySt ([Ev.delay 1000, Ev.out c.pin_rs cm] ++ nibblePhase c (b / 16)
            ++ pulse_enable c ++ nibblePhase c (b % 16)) p0 = some ((b % 16).testBit 0) ∧
        runTrace emptySt ([Ev.delay 1000, Ev.out c.pin_rs cm] ++ nibblePhase c (b / 16)
            ++ pulse_enable c ++ nibblePhase c (b % 16)) p1 = some ((b % 16).testBit 1) ∧
        runTrace emptySt ([Ev.delay 1000, Ev.out c.pin_rs cm] ++ nibblePhase c (b / 16)
            ++ pulse_enable c ++ nibblePhase c (b % 16)) p2 = some ((b % 16).testBit 2) ∧
        runTrace emptySt ([Ev.delay 1000, Ev.out c.pin_rs cm] ++ nibblePhase c (b / 16)
            ++ pulse_enable c ++ nibblePhase c (b % 16)) p3 = some ((b % 16).testBit 3)) := by
  rw [hpins] at hnd
  simp only [List.nodup_cons, List.mem_cons, List.not_mem_nil, or_false, not_or,
    List.nodup_nil, and_true] at hnd
  obtain ⟨⟨hre, hr0, hr1, hr2, hr3⟩, ⟨he0, he1, he2, he3⟩, ⟨h01, h02, h03⟩, ⟨h12, h13⟩,
    h23, -⟩ := hnd
  obtain ⟨a0, a1, a2, a3⟩ := runTrace_nibblePhase_at c p0 p1 p2 p3 (b / 16)
    (runTrace emptySt [Ev.delay 1000, Ev.out c.pin_rs cm]) hpins h01 h02 h03 h12 h13 h23
  obtain ⟨c0, c1, c2, c3⟩ := runTrace_nibblePhase_at c p0 p1 p2 p3 (b % 16)
    (runTrace emptySt ([Ev.delay 1000, Ev.out c.pin_rs cm] ++ nibblePhase c (b / 16)
      ++ pulse_enable c)) hpins h01 h02 h03 h12 h13 h23
  refine ⟨?_, rfl, ⟨?_, ?_, ?_, ?_, ?_⟩, ⟨?_, ?_, ?_, ?_, ?_⟩⟩
  · unfold write4bits
    rw [nibbleWrites_eq_hi c b hb, nibbleWrites_eq_lo c b hb]
  · rw [runTrace_append,
      runTrace_nibblePhase_other c p0 p1 p2 p3 (b / 16) _ c.pin_rs hpins hr0 hr1 hr2 hr3,
      runTrace_rs_init]
  · rw [runTrace_append]; exact a0
  · rw [runTrace_append]; exact a1
  · rw [runTrace_append]; exact a2
  · rw [runTrace_append]; exact a3
  · rw [runTrace_append,
      runTrace_nibblePhase_other c p0 p1 p2 p3 (b % 16) _ c.pin_rs hpins hr0 hr1 hr2 hr3,
      runTrace_append, runTrace_pulse_other c _ c.pin_rs hre, runTrace_append,
      runTrace_nibblePhase_other c p0 p1 p2 p3 (b / 16) _ c.pin_rs hpins hr0 hr1 hr2 hr3,
      runTrace_rs_init]
  · rw [runTrace_append]; exact c0
  · rw [runTrace_append]; exact c1
  · rw [runTrace_append]; exact c2
  · rw [runTrace_append]; exact c3

/-- Witness for claim C6 at the default wiring (RS 27, E 22, data pins
25, 24, 23, 18) and the function-set command 0x28: at the first latch the
register-select line is low and the data pin for D7 carries the high
nibble's most significant bit. -/
theorem claim6_witness :
    runTrace emptySt
        ([Ev.delay 1000, Ev.out defaultLCD.pin_rs false] ++ nibblePhase defaultLCD (40 / 16))
        defaultLCD.pin_rs = some false ∧
      runTrace emptySt
        ([Ev.delay 1000, Ev.out defaultLCD.pin_rs false] ++ nibblePhase defaultLCD (40 / 16))
        18 = some ((40 / 16).testBit 3) :=
  ⟨(claim6_write4bits defaultLCD 40 false 25 24 23 18 (by decide) rfl (by decide)).2.2.1.1,
   (claim6_write4bits defaultLCD 40 false 25 24 23 18 (by decide) rfl
      (by decide)).2.2.1.2.2.2.2⟩

/-! ## String lemmas for claim C10 -/

theorem dropWhile_head_not (p : Char → Bool) (l : List Char) (c : Char) (cs : List Char)
    (h : l.dropWhile p = c :: cs) : p c = false := by
  have hx := List.head?_dropWhile_not p l
  rw [h] at hx
  simpa using hx

theorem mem_of_mem_dropWhile (p : Char → Bool) (l : List Char) (c : Char)
    (h : c ∈ l.dropWhile p) : c ∈ l := by
  rw [← List.takeWhile_append_dropWhile p l]
  exact List.mem_append_right _ h

theorem dropWhile_eq_self_of_all (p : Char → Bool) (l : List Char)
    (h : ∀ c ∈ l, p c = false) : l.dropWhile p = l := by
  cases l with
  | nil => rfl
  | cons a t => exact List.dropWhile_cons_of_neg (by simp [h a (by simp)])

theorem pyStrip_eq_self_of_all (l : List Char) (h : ∀ c ∈ l, isPySpace c = false) :
    pyStrip l = l := by
  unfold pyStrip dropTrailingSpace
  rw [dropWhile_eq_self_of_all _ _ h,
    dropWhile_eq_self_of_all _ _ (fun c hc => h c (by simpa using hc)),
    List.reverse_reverse]

theorem pyStrip_head_not_space (l : List Char) (c : Char) (cs : List Char)
    (h : pyStrip l = c :: cs) : isPySpace c = false := by
  have hd := List.takeWhile_append_dropWhile isPySpace (l.dropWhile isPySpace).reverse
  have hu := congrArg List.reverse hd
  simp only [List.reverse_append, List.reverse_reverse] at hu
  have hu2 : l.dropWhile isPySpace =
      pyStrip l ++ ((l.dropWhile isPySpace).reverse.takeWhile isPySpace).reverse := hu.symm
  rw [h] at hu2
  simp only [List.cons_append] at hu2
  exact dropWhile_head_not isPySpace l c _ hu2

theorem pyStrip_last_not_space (l : List Char) (c : Char) (cs : List Char)
    (h : (pyStrip l).reverse = c :: cs) : isPySpace c = false := by
  have hx : (l.dropWhile isPySpace).reverse.dropWhile isPySpace = c :: cs := by
    simpa [pyStrip, dropTrailingSpace] using h
  exact dropWhile_head_not _ _ _ _ hx

theorem pyStrip_idem (l : List Char) : pyStrip (pyStrip l) = pyStrip l := by
  have h1 : (pyStrip l).dropWhile isPySpace = pyStrip l := by
    cases hp : pyStrip l with
    | nil => rfl
    | cons a t =>
      exact List.dropWhile_cons_of_neg (by simp [pyStrip_head_not_space l a t hp])
  have h2 : (pyStrip l).reverse.dropWhile isPySpace = (pyStrip l).reverse := by
    cases hp : (pyStrip l).reverse with
    | nil => rfl
    | cons a t =>
      exact List.dropWhile_cons_of_neg (by simp [pyStrip_last_not_space l a t hp])
  show dropTrailingSpace ((pyStrip l).dropWhile isPySpace) = pyStrip l
  rw [h1]
  unfold dropTrailingSpace
  rw [h2, List.reverse_reverse]

theorem mem_of_mem_pyStrip (l : List Char) (c : Char) (h : c ∈ pyStrip l) : c ∈ l := by
  unfold pyStrip dropTrailingSpace at h
  rw [List.mem_reverse] at h
  have h2 := mem_of_mem_dropWhile _ _ _ h
  rw [List.mem_reverse] at h2
  exact mem_of_mem_dropWhile _ _ _ h2

theorem pyStrip_cons_of_head (c : Char) (t : List Char) (hc : isPySpace c = false) :
    ∃ t2, pyStrip (c :: t) = c :: t2 := by
  have h1 : (c :: t).dropWhile isPySpace = c :: t :=
    List.dropWhile_cons_of_neg (by simp [hc])
  have hd := List.takeWhile_append_dropWhile isPySpace (c :: t).reverse
  set D := (c :: t).reverse.dropWhile isPySpace with hD
  have hne : D ≠ [] := by
    intro h0
    rw [h0, List.append_nil] at hd
    have hcmem : c ∈ (c :: t).reverse.takeWhile isPySpace := by
      rw [hd, List.mem_reverse]
      exact List.mem_cons_self c t
    have := List.mem_takeWhile_imp hcmem
    rw [hc] at this
    exact Bool.false_ne_true this
  obtain h0 | ⟨L, b, hLb⟩ := List.eq_nil_or_concat D
  · exact absurd h0 hne
  · rw [List.concat_eq_append] at hLb
    have hd2 : ((c :: t).reverse.takeWhile isPySpace ++ L) ++ [b] = t.reverse ++ [c] := by
      rw [List.append_assoc, ← hLb, hd, List.reverse_cons]
    have hbc : b = c := by
      have := (List.append_inj' hd2 rfl).2
      simpa using this
    refine ⟨L.reverse, ?_⟩
    show dropTrailingSpace ((c :: t).dropWhile isPySpace) = c :: L.reverse
    rw [h1]
    unfold dropTrailingSpace
    rw [← hD, hLb, hbc, List.reverse_append]
    rfl

theorem pyStrip_keyval (k v : List Char) (hks : pyStrip k = k) (hvs : pyStrip v = v) :
    pyStrip (k ++ '=' :: v) = k ++ '=' :: v := by
  have h1 : (k ++ '=' :: v).dropWhile isPySpace = k ++ '=' :: v := by
    cases k with
    | nil =>
      show ('=' :: v).dropWhile isPySpace = '=' :: v
      exact List.dropWhile_cons_of_neg (by decide)
    | cons a ks =>
      have ha := pyStrip_head_not_space (a :: ks) a ks hks
      show ((a :: ks) ++ '=' :: v).dropWhile isPySpace = (a :: ks) ++ '=' :: v
      rw [List.cons_append]
      exact List.dropWhile_cons_of_neg (by simp [ha])
  have h2 : (k ++ '=' :: v).reverse.dropWhile isPySpace = (k ++ '=' :: v).reverse := by
    rw [List.reverse_append, List.reverse_cons]
    cases hv2 : v.reverse with
    | nil =>
      show ('=' :: k.reverse).dropWhile isPySpace = '=' :: k.reverse
      exact List.dropWhile_cons_of_neg (by decide)
    | cons a t =>
      have ha : isPySpace a = false :=
        pyStrip_last_not_space v a t (by rw [hvs]; exact hv2)
      simp only [List.cons_append]
      exact List.dropWhile_cons_of_neg (by simp [ha])
  show dropTrailingSpace ((k ++ '=' :: v).dropWhile isPySpace) = k ++ '=' :: v
  rw [h1]
  unfold dropTrailingSpace
  rw [h2, List.reverse_reverse]

theorem takeWhile_keyval (k v : List Char) (hk : ∀ c ∈ k, c ≠ '=') :
    (k ++ '=' :: v).takeWhile (fun x => x != '=') = k ∧
      (k ++ '=' :: v).dropWhile (fun x => x != '=') = '=' :: v := by
  induction k with
  | nil =>
    constructor
    · show ('=' :: v).takeWhile (fun x => x != '=') = []
      exact List.takeWhile_cons_of_neg (by simp)
    · show ('=' :: v).dropWhile (fun x => x != '=') = '=' :: v
      exact List.dropWhile_cons_of_neg (by simp)
  | cons a ks ih =>
    have ha : (a != '=') = true := by
      have := hk a (by simp)
      simpa using this
    obtain ⟨iht, ihd⟩ := ih (fun c hc => hk c (by simp [hc]))
    constructor
    · show ((a :: ks) ++ '=' :: v).takeWhile (fun x => x != '=') = a :: ks
      rw [List.cons_append, List.takeWhile_cons_of_pos (p := fun x => x != '=') ha, iht]
    · show ((a :: ks) ++ '=' :: v).dropWhile (fun x => x != '=') = '=' :: v
      rw [List.cons_append, List.dropWhile_cons_of_pos (p := fun x => x != '=') ha, ihd]

/-! ## Dictionary lemmas for claim C10 -/

theorem lookupEnv_insertOrUpdate_self (m : List (List Char × List Char)) (k v : List Char) :
    lookupEnv (insertOrUpdate m k v) k = some v := by
  induction m with
  | nil => simp [insertOrUpdate, lookupEnv]
  | cons kv rest ih =>
    obtain ⟨k0, v0⟩ := kv
    by_cases h : k0 = k
    · simp [insertOrUpdate, h, lookupEnv]
    · simp [insertOrUpdate, h, lookupEnv, ih]

theorem lookupEnv_insertOrUpdate_ne (m : List (List Char × List Char)) (k v q : List Char)
    (h : q ≠ k) : lookupEnv (insertOrUpdate m k v) q = lookupEnv m q := by
  induction m with
  | nil => simp [insertOrUpdate, lookupEnv, Ne.symm h]
  | cons kv rest ih =>
    obtain ⟨k0, v0⟩ := kv
    by_cases h0 : k0 = k
    · subst h0
      simp [insertOrUpdate, lookupEnv, Ne.symm h]
    · simp [insertOrUpdate, h0, lookupEnv, ih]

theorem insertOrUpdate_not_mem (m : List (List Char × List Char)) (k v : List Char)
    (h : k ∉ m.map Prod.fst) : insertOrUpdate m k v = m ++ [(k, v)] := by
  induction m with
  | nil => rfl
  | cons kv rest ih =>
    obtain ⟨k0, v0⟩ := kv
    simp only [List.map_cons, List.mem_cons, not_or] at h
    obtain ⟨h1, h2⟩ := h
    simp [insertOrUpdate, Ne.symm h1, ih h2]

theorem insertOrUpdate_keys (m : List (List Char × List Char)) (k v : List Char) :
    (insertOrUpdate m k v).map Prod.fst =
      if k ∈ m.map Prod.fst then m.map Prod.fst else m.map Prod.fst ++ [k] := by
  induction m with
  | nil => simp [insertOrUpdate]
  | cons kv rest ih =>
    obtain ⟨k0, v0⟩ := kv
    by_cases h : k0 = k
    · subst h
      simp [insertOrUpdate]
    · by_cases h2 : k ∈ rest.map Prod.fst <;>
        simp [insertOrUpdate, h, ih, h2, Ne.symm h]

theorem insertOrUpdate_nodup (m : List (List Char × List Char)) (k v : List Char)
    (h : (m.map Prod.fst).Nodup) : ((insertOrUpdate m k v).map Prod.fst).Nodup := by
  rw [insertOrUpdate_keys]
  by_cases h2 : k ∈ m.map Prod.fst
  · simpa [h2] using h
  · simp only [h2, if_false]
    rw [List.nodup_append]
    refine ⟨h, List.nodup_singleton k, ?_⟩
    intro x hx hx2
    simp only [List.mem_singleton] at hx2
    subst hx2
    exact h2 hx

theorem insertOrUpdate_good (m : List (List Char × List Char)) (k v : List Char)
    (hm : ∀ kv ∈ m, goodPair kv) (hkv : goodPair (k, v)) :
    ∀ kv ∈ insertOrUpdate m k v, goodPair kv := by
  induction m with
  | nil =>
    intro kv h
    simp only [insertOrUpdate, List.mem_singleton] at h
    exact h ▸ hkv
  | cons kv0 rest ih =>
    obtain ⟨k0, v0⟩ := kv0
    intro kv h
    by_cases h0 : k0 = k
    · simp only [insertOrUpdate, if_pos h0, List.mem_cons] at h
      rcases h with h | h
      · exact h ▸ hkv
      · exact hm kv (List.mem_cons_of_mem _ h)
    · simp only [insertOrUpdate, if_neg h0, List.mem_cons] at h
      rcases h with h | h
      · exact h ▸ hm (k0, v0) (List.mem_cons_self _ _)
      · exact ih (fun kv2 hkv2 => hm kv2 (List.mem_cons_of_mem _ hkv2)) kv h

theorem pyStrip_nil : pyStrip [] = [] := rfl

theorem parseStep_toLine (m : List (List Char × List Char)) (k v : List Char)
    (hg : goodPair (k, v)) : parseStep m (k ++ '=' :: v) = insertOrUpdate m k v := by
  obtain ⟨hks, hvs, hkeq, hkh⟩ := hg
  obtain ⟨htake, hdrop⟩ := takeWhile_keyval k v hkeq
  have hstrip := pyStrip_keyval k v hks hvs
  cases k with
  | nil =>
    simp only [List.nil_append] at hstrip htake hdrop ⊢
    simp [parseStep, hstrip, htake, hdrop, hvs, pyStrip_nil]
  | cons a ks =>
    have ha : ¬ a = '#' := by simpa using hkh
    have hmem : '=' ∈ (a :: ks) ++ '=' :: v := List.mem_append_right _ (List.mem_cons_self _ _)
    simp only [List.cons_append] at hstrip htake hdrop hmem ⊢
    simp [parseStep, hstrip, htake, hdrop, hvs, hks, ha, hmem]

theorem parseStep_preserves (m : List (List Char × List Char)) (line : List Char)
    (h1 : ∀ kv ∈ m, goodPair kv) (h2 : (m.map Prod.fst).Nodup) :
    (∀ kv ∈ parseStep m line, goodPair kv) ∧ ((parseStep m line).map Prod.fst).Nodup := by
  cases hsl : pyStrip line with
  | nil =>
    simp only [parseStep, hsl]
    exact ⟨h1, h2⟩
  | cons c cs =>
    by_cases hc : c = '#'
    · simp only [parseStep, hsl, if_pos hc]
      exact ⟨h1, h2⟩
    · by_cases he : (c :: cs).contains '=' = true
      · have hcns : isPySpace c = false := pyStrip_head_not_space line c cs hsl
        have hgood : goodPair (pyStrip ((c :: cs).takeWhile (fun x => x != '=')),
            pyStrip (((c :: cs).dropWhile (fun x => x != '=')).drop 1)) := by
          refine ⟨pyStrip_idem _, pyStrip_idem _, ?_, ?_⟩
          · intro c2 hc2
            have hm := mem_of_mem_pyStrip _ _ hc2
            have := List.mem_takeWhile_imp hm
            simpa using this
          · cases ht : (c :: cs).takeWhile (fun x => x != '=') with
            | nil => simp [pyStrip_nil]
            | cons c2 cs2 =>
              by_cases hce : (c != '=') = true
              · rw [List.takeWhile_cons_of_pos (p := fun x => x != '=') hce] at ht
                have hc2 : c2 = c := by
                  have hh := congrArg List.head? ht
                  simpa using hh.symm
                subst hc2
                obtain ⟨t2, ht2⟩ := pyStrip_cons_of_head c2 cs2 hcns
                simp [ht2, hc]
              · rw [List.takeWhile_cons_of_neg (p := fun x => x != '=') (by simpa using hce)]
                  at ht
                exact absurd ht (by simp)
        simp only [parseStep, hsl, if_neg hc, if_pos he]
        exact ⟨insertOrUpdate_good m _ _ h1 hgood, insertOrUpdate_nodup m _ _ h2⟩
      · simp only [parseStep, hsl, if_neg hc, if_neg he]
        exact ⟨h1, h2⟩

theorem parseEnvLines_invariant (lines : List (List Char)) :
    ∀ m, (∀ kv ∈ m, goodPair kv) → (m.map Prod.fst).Nodup →
      (∀ kv ∈ lines.foldl parseStep m, goodPair kv) ∧
        ((lines.foldl parseStep m).map Prod.fst).Nodup := by
  induction lines with
  | nil => intro m h1 h2; exact ⟨h1, h2⟩
  | cons line rest ih =>
    intro m h1 h2
    obtain ⟨g1, g2⟩ := parseStep_preserves m line h1 h2
    exact ih _ g1 g2

theorem parseEnvLines_good (lines : List (List Char)) :
    (∀ kv ∈ parseEnvLines lines, goodPair kv) ∧
      ((parseEnvLines lines).map Prod.fst).Nodup :=
  parseEnvLines_invariant lines [] (by simp) (by simp)

theorem foldl_parseStep_toLines (m : List (List Char × List Char)) :
    ∀ acc : List (List Char × List Char), (∀ kv ∈ m, goodPair kv) →
      ((acc ++ m).map Prod.fst).Nodup →
      (m.map (fun kv => kv.1 ++ '=' :: kv.2)).foldl parseStep acc = acc ++ m := by
  induction m with
  | nil => intro acc _ _; simp
  | cons kv rest ih =>
    intro acc hg hnd
    obtain ⟨k, v⟩ := kv
    simp only [List.map_cons, List.foldl_cons]
    rw [parseStep_toLine acc k v (hg (k, v) (List.mem_cons_self _ _))]
    have hknotin : k ∉ acc.map Prod.fst := by
      have h2 := hnd
      rw [List.map_append, List.nodup_append] at h2
      intro hk
      exact h2.2.2 hk (by simp)
    rw [insertOrUpdate_not_mem acc k v hknotin]
    have hrec := ih (acc ++ [(k, v)]) (fun kv2 h => hg kv2 (List.mem_cons_of_mem _ h))
      (by rw [List.append_assoc]; simpa using hnd)
    rw [hrec, List.append_assoc]
    simp

theorem parseEnvLines_append_header (ls : List (List Char)) :
    parseEnvLines (headerLines ++ ls) = parseEnvLines ls := by
  unfold parseEnvLines
  rw [List.foldl_append]
  congr 1

theorem hex_chars_not_space : ∀ c ∈ hexAlphabet, isPySpace c = false := by decide

theorem generate_salt_chars (rand : List Nat) :
    ∀ c ∈ (generate_salt rand).data, c ∈ hexAlphabet := by
  intro c hc
  have hc2 : c ∈ (rand.map (fun b => [hexDigit ((b / 16) % 16), hexDigit (b % 16)])).flatten :=
    hc
  rw [List.mem_flatten] at hc2
  obtain ⟨l, hl, hcl⟩ := hc2
  rw [List.mem_map] at hl
  obtain ⟨b, -, hb⟩ := hl
  rw [← hb] at hcl
  simp only [List.mem_cons, List.not_mem_nil, or_false] at hcl
  rcases hcl with h | h <;> rw [h] <;> exact hexDigit_mod_mem _

theorem goodPair_hash (password : String) (rand : List Nat) :
    goodPair (hashKeyChars, (hash_password password none rand).1.data) := by
  refine ⟨?_, ?_, ?_, ?_⟩
  · show pyStrip hashKeyChars = hashKeyChars
    decide
  · show pyStrip (hash_password password none rand).1.data =
      (hash_password password none rand).1.data
    apply pyStrip_eq_self_of_all
    intro c hc
    have hc2 : c ∈ (sha256hex (utf8Bytes (password ++ generate_salt rand))).data := hc
    exact hex_chars_not_space _ (sha256hex_chars _ c hc2)
  · show ∀ c ∈ hashKeyChars, c ≠ '='
    decide
  · show hashKeyChars.head? ≠ some '#'
    decide

theorem goodPair_salt (password : String) (rand : List Nat) :
    goodPair (saltKeyChars, (hash_password password none rand).2.data) := by
  refine ⟨?_, ?_, ?_, ?_⟩
  · show pyStrip saltKeyChars = saltKeyChars
    decide
  · show pyStrip (hash_password password none rand).2.data =
      (hash_password password none rand).2.data
    apply pyStrip_eq_self_of_all
    intro c hc
    have hc2 : c ∈ (generate_salt rand).data := hc
    exact hex_chars_not_space _ (generate_salt_chars rand c hc2)
  · show ∀ c ∈ saltKeyChars, c ≠ '='
    decide
  · show saltKeyChars.head? ≠ some '#'
    decide

theorem parseEnvLines_save (password : String) (rand : List Nat) (old : List (List Char)) :
    parseEnvLines (save_password_to_env password rand old) = savedEnv password rand old := by
  unfold save_password_to_env
  rw [parseEnvLines_append_header]
  obtain ⟨hgood, hnd⟩ := parseEnvLines_good old
  have hgood1 : ∀ kv ∈ insertOrUpdate (parseEnvLines old) hashKeyChars
      (hash_password password none rand).1.data, goodPair kv :=
    insertOrUpdate_good _ _ _ hgood (goodPair_hash password rand)
  have hnd1 := insertOrUpdate_nodup (parseEnvLines old) hashKeyChars
    (hash_password password none rand).1.data hnd
  have hgood2 : ∀ kv ∈ savedEnv password rand old, goodPair kv :=
    insertOrUpdate_good _ _ _ hgood1 (goodPair_salt password rand)
  have hnd2 : ((savedEnv password rand old).map Prod.fst).Nodup :=
    insertOrUpdate_nodup _ saltKeyChars (hash_password password none rand).2.data hnd1
  unfold parseEnvLines
  simpa using foldl_parseStep_toLines (savedEnv password rand old) [] hgood2 (by simpa using hnd2)

/-- Claim C10: frame effect of enrollment persistence.  For every existing
configuration file, save_password_to_env rewrites it so that every parsed
non-comment KEY=VALUE pair under any key other than RFID_PASSWORD_HASH and
RFID_PASSWORD_SALT is preserved with its previous (stripped) value — the
rewritten file parses back to the old dictionary except exactly those two
keys, which now hold the freshly computed hash and the freshly generated
salt. -/
theorem claim10_frame (password : String) (rand : List Nat) (old : List (List Char))
    (k : List Char) (hk1 : k ≠ hashKeyChars) (hk2 : k ≠ saltKeyChars) :
    lookupEnv (parseEnvLines (save_password_to_env password rand old)) k =
        lookupEnv (parseEnvLines old) k ∧
      lookupEnv (parseEnvLines (save_password_to_env password rand old)) hashKeyChars =
        some (hash_password password none rand).1.data ∧
      lookupEnv (parseEnvLines (save_password_to_env password rand old)) saltKeyChars =
        some (hash_password password none rand).2.data := by
  rw [parseEnvLines_save]
  unfold savedEnv
  refine ⟨?_, ?_, ?_⟩
  · rw [lookupEnv_insertOrUpdate_ne _ _ _ _ hk2, lookupEnv_insertOrUpdate_ne _ _ _ _ hk1]
  · rw [lookupEnv_insertOrUpdate_ne _ _ _ _ (by decide : hashKeyChars ≠ saltKeyChars),
      lookupEnv_insertOrUpdate_self]
  · rw [lookupEnv_insertOrUpdate_self]

/-- Witness for claim C10: saving over a file holding a comment, an
unrelated key and a stale hash preserves the unrelated key's stripped value
and replaces the two credential keys. -/
theorem claim10_witness :
    lookupEnv (parseEnvLines (save_password_to_env "pw" [171] oldLines10)) "OTHER_KEY".data =
        lookupEnv (parseEnvLines oldLines10) "OTHER_KEY".data ∧
      lookupEnv (parseEnvLines oldLines10) "OTHER_KEY".data = some "keep me".data ∧
      lookupEnv (parseEnvLines (save_password_to_env "pw" [171] oldLines10)) hashKeyChars =
        some (hash_password "pw" none [171]).1.data ∧
      lookupEnv (parseEnvLines (save_password_to_env "pw" [171] oldLines10)) saltKeyChars =
        some (hash_password "pw" none [171]).2.data :=
  ⟨(claim10_frame "pw" [171] oldLines10 "OTHER_KEY".data (by decide) (by decide)).1,
   by decide,
   (claim10_frame "pw" [171] oldLines10 "OTHER_KEY".data (by decide) (by decide)).2.1,
   (claim10_frame "pw" [171] oldLines10 "OTHER_KEY".data (by decide) (by decide)).2.2⟩

/-! ## SHA-256 validation against the FIPS 180-4 test vectors -/

theorem sha256hex_vector_abc :
    sha256hex (utf8Bytes "abc") =
      "ba7816bf8f01cfea414140de5dae2223b00361a396177a9cb410ff61f20015ad" := by decide

theorem sha256hex_vector_empty :
    sha256hex (utf8Bytes "") =
      "e3b0c44298fc1c149afbf4c8996fb92427ae41e4649b934ca495991b7852b855" := by decide

theorem sha256hex_vector_two_blocks :
    sha256hex (utf8Bytes "abcdbcdecdefdefgefghfghighijhijkijkljklmklmnlmnomnopnopq") =
      "248d6a61d20638b8e5c026930c3e6039a33ce45964ff2167f6ecedd419db06c1" := by decide

end RfidServoLock
